import Mathlib

/-!
Shallow embedding of the AWS Bedrock model-discovery pipeline of the
nanobrowser repository, covering
`chrome-extension/src/background/services/aws-model-discovery.ts`
(catalog acquisition, access-status resolution, command synthesis, the
discovery orchestrator) and the region fan-out query of
`chrome-extension/src/background/agent/helper.ts` (`fetchBedrockModels`,
lines 33-126).

External effects (HTTP fetches, DOM parsing) are modelled by explicit
outcome oracles: every network call is represented by an `HttpOutcome`
value (thrown transport error / non-2xx response / 2xx payload), and the
documentation fetch plus DOM parse by `FetchOutcome`/`DomOutcome`.  All
JavaScript string primitives used by the source (`includes`,
`toLowerCase`, `trim`, `split`, default `Array.prototype.sort`) are
modelled by executable character-list functions so that every definition
evaluates inside the kernel.
-/

namespace Aws

/-- Tests whether the first character list is a prefix of the second
(helper for the model of JavaScript `String.prototype.includes`). -/
def charsHavePre : List Char → List Char → Bool
  | [], _ => true
  | _ :: _, [] => false
  | a :: as, b :: bs => if a = b then charsHavePre as bs else false

/-- Tests whether `needle` occurs as a contiguous substring of the second
list (helper for the model of JavaScript `String.prototype.includes`). -/
def charsHaveSub (needle : List Char) : List Char → Bool
  | [] => needle.isEmpty
  | c :: cs => charsHavePre needle (c :: cs) || charsHaveSub needle cs

/-- Model of JavaScript `s.includes(pat)` (also used for the source's
regular-expression tests `/claude-4/` etc., which are plain substring
tests). -/
def strIncludes (s pat : String) : Bool := charsHaveSub pat.toList s.toList

/-- Model of JavaScript `s.toLowerCase()` (character-wise lowering is
adequate for the ASCII data this service handles). -/
def strLower (s : String) : String := String.mk (s.toList.map Char.toLower)

/-- Model of JavaScript `s.trim()`: strip whitespace from both ends. -/
def strTrim (s : String) : String :=
  String.mk (((s.toList.dropWhile Char.isWhitespace).reverse.dropWhile
    Char.isWhitespace).reverse)

/-- Splits a character list at every character satisfying `p`, keeping
empty pieces, as JavaScript `String.prototype.split` does. -/
def splitChars (p : Char → Bool) : List Char → List (List Char)
  | [] => [[]]
  | c :: cs =>
    if p c then [] :: splitChars p cs
    else
      match splitChars p cs with
      | [] => [[c]]
      | piece :: rest => (c :: piece) :: rest

/-- Model of JavaScript `s.split(sep)` for a one-character separator. -/
def strSplitOnChar (sep : Char) (s : String) : List String :=
  (splitChars (fun c => decide (c = sep)) s.toList).map String.mk

/-- Model of `s.split(/\s+/)`: the source filters out empty pieces
afterwards, so splitting at every whitespace character is equivalent. -/
def strSplitWs (s : String) : List String :=
  (splitChars Char.isWhitespace s.toList).map String.mk

/-- JavaScript code-unit comparison of strings as used by the default
`Array.prototype.sort` comparator, modelled as lexicographic order on the
character lists. -/
def clLe : List Char → List Char → Bool
  | [], _ => true
  | _ :: _, [] => false
  | a :: as, b :: bs => if a = b then clLe as bs else decide (a < b)

/-- The ordering used by the default JavaScript `Array.prototype.sort` on
strings. -/
def jsStrLe (a b : String) : Prop := clLe a.toList b.toList = true

instance : DecidableRel jsStrLe := fun a b => Bool.decEq (clLe a.toList b.toList) true

/-- Model of `Array.from(set).sort()` ordering: sort with the JavaScript
string comparison. -/
def jsSortStrings (l : List String) : List String := List.insertionSort jsStrLe l

/-- Model of `Set.prototype.add`: JavaScript sets preserve insertion order
and skip elements already present. -/
def jsSetAdd (s : List String) (x : String) : List String :=
  if x ∈ s then s else s ++ [x]

/-- `BedrockModelInfo` of `aws-model-discovery.ts` (the
`'ACTIVE' | 'PREVIEW' | 'DEPRECATED'` union is kept as a string, and the
optional `releaseDate` becomes an `Option`). -/
structure BedrockModelInfo where
  modelId : String
  modelName : String
  provider : String
  regions : List String
  inputModalities : List String
  outputModalities : List String
  streamingSupported : Bool
  requiresAccess : Bool
  status : String
  releaseDate : Option String
  deriving Repr, DecidableEq

/-- `ModelAccessStatus` of `aws-model-discovery.ts`. -/
structure ModelAccessStatus where
  modelId : String
  hasAccess : Bool
  accessStatus : String
  canRequestAccess : Bool
  deriving Repr, DecidableEq

/-- The `{ accessKeyId, secretAccessKey }` credentials record. -/
structure Credentials where
  accessKeyId : String
  secretAccessKey : String
  deriving Repr, DecidableEq

/-- One HTML `table` element of the fetched documentation page, reduced to
the text contents the parser reads: the `th` header cells and the `td`
cells of each `tbody tr` row. -/
structure HtmlTable where
  headers : List String
  rows : List (List String)
  deriving Repr, DecidableEq

/-- Outcome of `new DOMParser().parseFromString` plus the query-selector
traversals inside the `try` block of `parseModelCatalogFromHTML`: either
some DOM operation throws, or it yields the list of tables of the
document. -/
inductive DomOutcome where
  | throwErr : DomOutcome
  | ok : List HtmlTable → DomOutcome
  deriving Repr, DecidableEq

/-- Outcome of the documentation fetch in `fetchLatestModelCatalog`:
either `fetch`/`response.text()` throws, or it yields a document whose
DOM-parse outcome is recorded. -/
inductive FetchOutcome where
  | throwErr : FetchOutcome
  | ok : DomOutcome → FetchOutcome
  deriving Repr, DecidableEq

/-- Outcome of one signed HTTP call: a thrown transport error, a non-2xx
response (`response.ok` false), or a 2xx response carrying the decoded
JSON payload.  A `response.json()` failure is a thrown error and is
covered by `throwErr`. -/
inductive HttpOutcome (α : Type) where
  | throwErr : HttpOutcome α
  | notOk : HttpOutcome α
  | ok : α → HttpOutcome α
  deriving Repr, DecidableEq

/-- The `accessRequiredPatterns` array of `isModelRequiringAccess`; each
regular expression `/claude-4/`, `/opus-4/`, ... is a plain substring
test. -/
def accessRequiredPatterns : List String :=
  ["claude-4", "opus-4", "sonnet-4", "haiku-4", "nova-premier", "nova-pro"]

/-- `isModelRequiringAccess` of `aws-model-discovery.ts` (lines 139-156):
an Anthropic-specific branch, then the generic gated-family pattern
test. -/
def isModelRequiringAccess (modelId provider : String) : Bool :=
  if strIncludes (strLower provider) "anthropic" &&
      (strIncludes modelId "claude-4" || strIncludes modelId "claude-sonnet-4" ||
        strIncludes modelId "claude-opus-4" || strIncludes modelId "claude-haiku-4") then
    true
  else
    accessRequiredPatterns.any (fun pattern => strIncludes modelId pattern)

/-- The generic gated-family test alone (the `accessRequiredPatterns.some`
expression of the source). -/
def gatedFamilyTest (modelId : String) : Bool :=
  accessRequiredPatterns.any (fun pattern => strIncludes modelId pattern)

/-- Tests whether positions `i..i+7` of `l` all exist and hold digits:
exactly the condition under which the regular expression `/(\d{8})/` can
match at index `i`. -/
def eightAt (l : List Char) (i : Nat) : Bool :=
  decide (((l.drop i).take 8).length = 8) && ((l.drop i).take 8).all Char.isDigit

/-- The first match of `/(\d{8})/`: scan left to right for the first
index at which eight consecutive digits start, and return those eight
characters. -/
def firstEightWindow : List Char → Option (List Char)
  | [] => none
  | c :: cs => if eightAt (c :: cs) 0 then some ((c :: cs).take 8) else firstEightWindow cs

/-- The `${year}-${month}-${day}` formatting of `inferReleaseDate`, using
`substring(0,4)`, `substring(4,6)`, `substring(6,8)` of the matched
digits. -/
def fmtDate (ds : List Char) : String :=
  String.mk (ds.take 4) ++ "-" ++ String.mk ((ds.drop 4).take 2) ++ "-" ++
    String.mk ((ds.drop 6).take 2)

/-- `inferReleaseDate` of `aws-model-discovery.ts` (lines 161-171):
`modelId.match(/(\d{8})/)` formatted as `YYYY-MM-DD`, else
`undefined`. -/
def inferReleaseDate (modelId : String) : Option String :=
  (firstEightWindow modelId.toList).map fmtDate

/-- Header test of the table scan in `parseModelCatalogFromHTML`: the
lowercased `th` texts must contain both `'model id'` and
`'provider'`. -/
def tableMatches (t : HtmlTable) : Bool :=
  let headerText := t.headers.map strLower
  decide ("model id" ∈ headerText) && decide ("provider" ∈ headerText)

/-- The `for ... break` scan over `doc.querySelectorAll('table')`: the
first table whose headers match. -/
def findModelTable (tables : List HtmlTable) : Option HtmlTable :=
  tables.find? tableMatches

/-- One iteration of the row loop of `parseModelCatalogFromHTML`: rows
with fewer than 6 cells are skipped, fields are trimmed text contents
(with `|| ''` for absent cells), and the row is kept only when both
`modelId` and `provider` are non-empty. -/
def parseRow (cells : List String) : Option BedrockModelInfo :=
  if cells.length < 6 then none
  else
    let provider := strTrim (cells.getD 0 "")
    let modelName := strTrim (cells.getD 1 "")
    let modelId := strTrim (cells.getD 2 "")
    let regions := strSplitWs (strTrim (cells.getD 3 ""))
    let inputModalities := (strSplitOnChar ',' (strTrim (cells.getD 4 ""))).map strTrim
    let outputModalities := (strSplitOnChar ',' (strTrim (cells.getD 5 ""))).map strTrim
    let streamingSupported := strIncludes (strLower (cells.getD 6 "")) "yes"
    if modelId = "" ∨ provider = "" then none
    else
      some
        { modelId, modelName, provider,
          regions := regions.filter (fun r => !(decide (r = "")) && !(decide (r = "*"))),
          inputModalities, outputModalities, streamingSupported,
          requiresAccess := isModelRequiringAccess modelId provider,
          status := "ACTIVE", releaseDate := none }

/-- The row loop of `parseModelCatalogFromHTML`. -/
def parseRows (rows : List (List String)) : List BedrockModelInfo :=
  rows.filterMap parseRow

/-- `parseModelCatalogFromHTML` of `aws-model-discovery.ts` (lines
56-123).  The function wraps its whole body in `try ... catch` and
returns the `models` accumulated so far on any caught error, so both a
DOM failure and the explicit `throw new Error('Model table not found')`
yield the empty list rather than propagating. -/
def parseModelCatalogFromHTML (dom : DomOutcome) : List BedrockModelInfo :=
  match dom with
  | DomOutcome.throwErr => []
  | DomOutcome.ok tables =>
    match findModelTable tables with
    | none => []
    | some t => parseRows t.rows

/-- `enhanceModelMetadata` of `aws-model-discovery.ts` (lines 128-134): a
pure map recomputing `releaseDate` and `requiresAccess`. -/
def enhanceModelMetadata (models : List BedrockModelInfo) : List BedrockModelInfo :=
  models.map fun model =>
    { model with
      releaseDate := inferReleaseDate model.modelId,
      requiresAccess := isModelRequiringAccess model.modelId model.provider }

/-- `getFallbackModelCatalog` of `aws-model-discovery.ts` (lines
264-342), transcribed verbatim. -/
def getFallbackModelCatalog : List BedrockModelInfo :=
  [{ modelId := "anthropic.claude-sonnet-4-5-20250929-v1:0",
     modelName := "Claude Sonnet 4.5", provider := "Anthropic",
     regions := ["us-east-1", "us-east-2", "us-west-1", "us-west-2", "eu-west-1", "eu-central-1"],
     inputModalities := ["Text", "Image"], outputModalities := ["Text", "Chat"],
     streamingSupported := true, requiresAccess := true, status := "ACTIVE",
     releaseDate := some "2025-09-29" },
   { modelId := "anthropic.claude-haiku-4-5-20251001-v1:0",
     modelName := "Claude Haiku 4.5", provider := "Anthropic",
     regions := ["us-east-1", "us-east-2", "us-west-1", "us-west-2", "eu-west-1", "eu-central-1"],
     inputModalities := ["Text", "Image"], outputModalities := ["Text", "Chat"],
     streamingSupported := true, requiresAccess := true, status := "ACTIVE",
     releaseDate := some "2025-10-01" },
   { modelId := "anthropic.claude-sonnet-4-20250514-v1:0",
     modelName := "Claude Sonnet 4", provider := "Anthropic",
     regions := ["us-east-1", "us-east-2", "us-west-1", "us-west-2", "eu-west-1"],
     inputModalities := ["Text", "Image"], outputModalities := ["Text", "Chat"],
     streamingSupported := true, requiresAccess := true, status := "ACTIVE",
     releaseDate := some "2025-05-14" },
   { modelId := "anthropic.claude-opus-4-20250514-v1:0",
     modelName := "Claude Opus 4", provider := "Anthropic",
     regions := ["us-east-1", "us-east-2", "us-west-2"],
     inputModalities := ["Text", "Image"], outputModalities := ["Text", "Chat"],
     streamingSupported := true, requiresAccess := true, status := "ACTIVE",
     releaseDate := some "2025-05-14" },
   { modelId := "us.anthropic.claude-sonnet-4-5-20250929-v1:0",
     modelName := "Claude Sonnet 4.5 (US Cross-Region)", provider := "Anthropic",
     regions := ["us-west-2"],
     inputModalities := ["Text", "Image"], outputModalities := ["Text", "Chat"],
     streamingSupported := true, requiresAccess := true, status := "ACTIVE",
     releaseDate := some "2025-09-29" },
   { modelId := "eu.anthropic.claude-sonnet-4-5-20250929-v1:0",
     modelName := "Claude Sonnet 4.5 (EU Cross-Region)", provider := "Anthropic",
     regions := ["eu-west-1"],
     inputModalities := ["Text", "Image"], outputModalities := ["Text", "Chat"],
     streamingSupported := true, requiresAccess := true, status := "ACTIVE",
     releaseDate := some "2025-09-29" }]

/-- `fetchLatestModelCatalog` of `aws-model-discovery.ts` (lines 31-51):
its `catch` (returning the fallback catalog) fires only when the fetch or
text extraction throws, because `parseModelCatalogFromHTML` catches its
own errors and `enhanceModelMetadata` is a pure map. -/
def fetchLatestModelCatalog (w : FetchOutcome) : List BedrockModelInfo :=
  match w with
  | FetchOutcome.throwErr => getFallbackModelCatalog
  | FetchOutcome.ok dom => enhanceModelMetadata (parseModelCatalogFromHTML dom)

/-- `fetchLatestModelCatalog` with the throw/catch structure made
explicit: the `try` block is an `Except` computation and the `catch`
returns the fallback catalog. -/
def fetchLatestModelCatalogE (w : FetchOutcome) : Except String (List BedrockModelInfo) :=
  match
    (match w with
     | FetchOutcome.throwErr => Except.error "failed to fetch model catalog"
     | FetchOutcome.ok dom =>
       Except.ok (enhanceModelMetadata (parseModelCatalogFromHTML dom))) with
  | Except.ok models => Except.ok models
  | Except.error _ => Except.ok getFallbackModelCatalog

/-- The success branch of `checkModelAccessStatus`: membership in the
granted set decides `hasAccess` and the `GRANTED`/`NOT_REQUESTED`
state. -/
def classifyLive (grantedModels : List String) (modelIds : List String) :
    List ModelAccessStatus :=
  modelIds.map fun modelId =>
    { modelId,
      hasAccess := decide (modelId ∈ grantedModels),
      accessStatus := if modelId ∈ grantedModels then "GRANTED" else "NOT_REQUESTED",
      canRequestAccess := true }

/-- The `catch` branch of `checkModelAccessStatus`: assume no access for
models that typically require it (note the fixed `'NOT_REQUESTED'`
state and the empty provider string passed to
`isModelRequiringAccess`). -/
def classifyHeuristic (modelIds : List String) : List ModelAccessStatus :=
  modelIds.map fun modelId =>
    { modelId,
      hasAccess := !isModelRequiringAccess modelId "",
      accessStatus := "NOT_REQUESTED",
      canRequestAccess := true }

/-- `checkModelAccessStatus` of `aws-model-discovery.ts` (lines 176-226).
When the signed fetch returns a non-2xx response, the `if (response.ok)`
guard simply skips the push loop, no error is thrown, and the function
returns the still-empty `accessStatuses` array. -/
def checkModelAccessStatus (creds : Credentials) (region : String)
    (modelIds : List String) (query : HttpOutcome (List String)) :
    List ModelAccessStatus :=
  match query with
  | HttpOutcome.ok granted => classifyLive granted modelIds
  | HttpOutcome.notOk => []
  | HttpOutcome.throwErr => classifyHeuristic modelIds

/-- `checkModelAccessStatus` with the throw/catch structure made
explicit.  `createSignedFetcher` is a pure wrapper construction and is
modelled as non-throwing. -/
def checkModelAccessStatusE (creds : Credentials) (region : String)
    (modelIds : List String) (query : HttpOutcome (List String)) :
    Except String (List ModelAccessStatus) :=
  match
    (match query with
     | HttpOutcome.throwErr => Except.error "failed to check access status"
     | HttpOutcome.notOk => Except.ok ([] : List ModelAccessStatus)
     | HttpOutcome.ok granted => Except.ok (classifyLive granted modelIds)) with
  | Except.ok statuses => Except.ok statuses
  | Except.error _ => Except.ok (classifyHeuristic modelIds)

/-- `modelId.split('.')[0]` of `generateAccessRequestCommands`: the text
before the first dot (the whole identifier when it has no dot). -/
def providerOf (modelId : String) : String :=
  (strSplitOnChar '.' modelId).headD ""

/-- One `modelsByProvider` map update: JavaScript `Map` keeps keys in
insertion order, and the model id is appended to its provider's list. -/
def addToGroup : List (String × List String) → String → String → List (String × List String)
  | [], provider, modelId => [(provider, [modelId])]
  | (p, ms) :: rest, provider, modelId =>
    if p = provider then (p, ms ++ [modelId]) :: rest
    else (p, ms) :: addToGroup rest provider modelId

/-- The grouping loop of `generateAccessRequestCommands` (lines
237-243). -/
def groupByProvider (modelIds : List String) : List (String × List String) :=
  modelIds.foldl (fun m modelId => addToGroup m (providerOf modelId) modelId) []

/-- The quoted-identifier rendering of a group's model list. -/
def quoteId (m : String) : String := "\"" ++ m ++ "\""

/-- The six lines pushed for one provider group (lines 246-256). -/
def groupCommands (provider : String) (models : List String) (region : String) :
    List String :=
  let modelList := String.intercalate " " (models.map quoteId)
  ["# Request access for " ++ provider ++ " models",
   "aws bedrock put-model-access-request \\",
   "  --region " ++ region ++ " \\",
   "  --model-ids " ++ modelList ++ " \\",
   "  --access-request-reason \"Automated access request for Nanobrowser extension\"",
   ""]

/-- `generateAccessRequestCommands` of `aws-model-discovery.ts` (lines
231-259). -/
def generateAccessRequestCommands (modelIds : List String) (region : String) :
    List String :=
  ((groupByProvider modelIds).map fun g => groupCommands g.1 g.2 region).flatten

/-- One entry of `data.modelSummaries` as read by the foundation-models
query (absent fields are modelled by the empty list / empty string, which
fail the filters exactly as `undefined` does). -/
structure ModelSummary where
  modelId : String
  outputModalities : List String
  lifecycleStatus : String
  deriving Repr, DecidableEq

/-- One entry of `data.inferenceProfileSummaries` as read by the
inference-profiles query. -/
structure ProfileSummary where
  inferenceProfileId : String
  status : String
  deriving Repr, DecidableEq

/-- The filtered model ids a 2xx foundation-models response contributes:
text-capable output and `ACTIVE` lifecycle. -/
def foundationContribution (modelSummaries : List ModelSummary) : List String :=
  (modelSummaries.filter fun m =>
      decide ("TEXT" ∈ m.outputModalities) && decide (m.lifecycleStatus = "ACTIVE")).map
    fun m => m.modelId

/-- The ids an inference-profiles query contributes: nothing on a thrown
error (caught by the inner `try` of `fetchBedrockModels`) or a non-2xx
response, else the `ACTIVE` profiles. -/
def profileContribution : HttpOutcome (List ProfileSummary) → List String
  | HttpOutcome.throwErr => []
  | HttpOutcome.notOk => []
  | HttpOutcome.ok profiles =>
    (profiles.filter fun p => decide (p.status = "ACTIVE")).map
      fun p => p.inferenceProfileId

/-- The ids one region contributes in the loop of `fetchBedrockModels`
(helper.ts lines 38-124).  A thrown foundation-models error is caught by
the outer per-region `catch`, which skips the rest of that region's body
including its inference-profiles query; a non-2xx foundation response
merely skips the foundation ids. -/
def regionContribution (foundation : HttpOutcome (List ModelSummary))
    (profiles : HttpOutcome (List ProfileSummary)) : List String :=
  match foundation with
  | HttpOutcome.throwErr => []
  | HttpOutcome.notOk => profileContribution profiles
  | HttpOutcome.ok ms => foundationContribution ms ++ profileContribution profiles

/-- The region list of `fetchBedrockModels` (helper.ts lines 33-34). -/
def bedrockRegionsFor (selectedRegion : String) : List String :=
  if selectedRegion = "multi-region" then
    ["us-west-2", "us-east-1", "eu-west-1", "ap-northeast-1"]
  else [selectedRegion]

/-- The fan-out merge of `fetchBedrockModels` (helper.ts lines 36-126):
accumulate each region's contributions into the `allModels` set in
iteration order, then `Array.from(allModels).sort()`.  The per-region
outcomes are given by the two oracles. -/
def fetchBedrockModelsMerged (foundationResp : String → HttpOutcome (List ModelSummary))
    (profileResp : String → HttpOutcome (List ProfileSummary))
    (regions : List String) : List String :=
  jsSortStrings
    (regions.foldl
      (fun allModels region =>
        (regionContribution (foundationResp region) (profileResp region)).foldl
          jsSetAdd allModels)
      [])

/-- `fetchActuallyAvailableModels` of `aws-model-discovery.ts` (lines
392-443): a single `try` wraps both queries of the one region, so a
thrown foundation-models error skips the inference-profiles query, while
a thrown profiles error still leaves the already-added foundation ids in
the set; the function always ends with `Array.from(allModels).sort()`. -/
def fetchActuallyAvailableModels (foundation : HttpOutcome (List ModelSummary))
    (profiles : HttpOutcome (List ProfileSummary)) : List String :=
  match foundation with
  | HttpOutcome.throwErr => []
  | HttpOutcome.notOk => jsSortStrings ((profileContribution profiles).foldl jsSetAdd [])
  | HttpOutcome.ok ms =>
    jsSortStrings
      ((foundationContribution ms ++ profileContribution profiles).foldl jsSetAdd [])

/-- The `try` block of `fetchActuallyAvailableModels`: the accumulated id
list paired with the flag recording whether an error was thrown (and
caught). -/
def availAttempt (foundation : HttpOutcome (List ModelSummary))
    (profiles : HttpOutcome (List ProfileSummary)) : List String × Bool :=
  match foundation with
  | HttpOutcome.throwErr => ([], true)
  | HttpOutcome.notOk =>
    match profiles with
    | HttpOutcome.throwErr => ([], true)
    | HttpOutcome.notOk => ([], false)
    | HttpOutcome.ok ps => (profileContribution (HttpOutcome.ok ps), false)
  | HttpOutcome.ok ms =>
    match profiles with
    | HttpOutcome.throwErr => (foundationContribution ms, true)
    | HttpOutcome.notOk => (foundationContribution ms, false)
    | HttpOutcome.ok ps =>
      (foundationContribution ms ++ profileContribution (HttpOutcome.ok ps), false)

/-- `fetchActuallyAvailableModels` with the throw/catch structure made
explicit: the caught error only suppresses further additions, and the
sorted set is returned in every case. -/
def fetchActuallyAvailableModelsE (foundation : HttpOutcome (List ModelSummary))
    (profiles : HttpOutcome (List ProfileSummary)) : Except String (List String) :=
  Except.ok (jsSortStrings ((availAttempt foundation profiles).1.foldl jsSetAdd []))

/-- The four-field result record of `discoverAvailableModels`. -/
structure DiscoveryResult where
  availableModels : List String
  catalogModels : List BedrockModelInfo
  accessStatuses : List ModelAccessStatus
  cliCommands : List String
  deriving Repr, DecidableEq

/-- The outcomes of every external call one `discoverAvailableModels` run
performs. -/
structure DiscoveryWorld where
  catalogFetch : FetchOutcome
  accessQuery : HttpOutcome (List String)
  foundationQuery : HttpOutcome (List ModelSummary)
  profileQuery : HttpOutcome (List ProfileSummary)
  deriving Repr, DecidableEq

/-- `discoverAvailableModels` of `aws-model-discovery.ts` (lines
347-387). -/
def discoverAvailableModels (w : DiscoveryWorld) (creds : Credentials)
    (region : String) : DiscoveryResult :=
  let catalogModels := fetchLatestModelCatalog w.catalogFetch
  let catalogModelIds := catalogModels.map fun m => m.modelId
  let accessStatuses := checkModelAccessStatus creds region catalogModelIds w.accessQuery
  let availableModels := fetchActuallyAvailableModels w.foundationQuery w.profileQuery
  let modelsNeedingAccess :=
    (accessStatuses.filter fun status => !status.hasAccess && status.canRequestAccess).map
      fun status => status.modelId
  let cliCommands := generateAccessRequestCommands modelsNeedingAccess region
  { availableModels, catalogModels, accessStatuses, cliCommands }

/-- `discoverAvailableModels` with every fallible sub-step as an `Except`
computation, so that totality (no error ever reaches the caller) is a
provable statement rather than a modelling assumption. -/
def discoverAvailableModelsE (w : DiscoveryWorld) (creds : Credentials)
    (region : String) : Except String DiscoveryResult :=
  (fetchLatestModelCatalogE w.catalogFetch).bind fun catalogModels =>
    (checkModelAccessStatusE creds region (catalogModels.map fun m => m.modelId)
        w.accessQuery).bind fun accessStatuses =>
      (fetchActuallyAvailableModelsE w.foundationQuery w.profileQuery).bind
        fun availableModels =>
          Except.ok
            { availableModels, catalogModels, accessStatuses,
              cliCommands :=
                generateAccessRequestCommands
                  ((accessStatuses.filter fun status =>
                      !status.hasAccess && status.canRequestAccess).map
                    fun status => status.modelId)
                  region }

/-- Splits a character list into its maximal runs of consecutive digits,
carrying the (reversed) run being built.  Used only to state the spec's
reading of `releaseDate` extraction. -/
def digitRunsGo : List Char → List Char → List (List Char)
  | cur, [] => if cur.isEmpty then [] else [cur.reverse]
  | cur, c :: cs =>
    if c.isDigit then digitRunsGo (c :: cur) cs
    else if cur.isEmpty then digitRunsGo [] cs else cur.reverse :: digitRunsGo [] cs

/-- The maximal runs of consecutive digits of a character list, in
order. -/
def maximalDigitRuns (l : List Char) : List (List Char) := digitRunsGo [] l

/-- The release-date extraction as the spec words it ("the first maximal
run of exactly 8 consecutive digits"), stated for comparison with the
source's `inferReleaseDate`. -/
def specReleaseDateByMaximalRun (modelId : String) : Option String :=
  (((maximalDigitRuns modelId.toList).filter fun r => decide (r.length = 8)).head?).map
    fmtDate

/-! Helper lemmas about the JavaScript string primitives. -/

theorem charsHavePre_iff : ∀ n h : List Char, charsHavePre n h = true ↔ n <+: h
  | [], h => by simp [charsHavePre]
  | a :: as, [] => by simp [charsHavePre]
  | a :: as, b :: bs => by
    rw [List.cons_prefix_cons]
    by_cases hab : a = b
    · simp [charsHavePre, hab, charsHavePre_iff as bs]
    · simp [charsHavePre, hab]

theorem charsHaveSub_iff : ∀ n h : List Char, charsHaveSub n h = true ↔ n <:+: h
  | n, [] => by simp [charsHaveSub, List.infix_nil, List.isEmpty_iff]
  | n, c :: cs => by
    rw [List.infix_cons_iff]
    simp [charsHaveSub, charsHavePre_iff, charsHaveSub_iff n cs]

theorem strIncludes_trans (s a b : String) (h1 : strIncludes s a = true)
    (h2 : strIncludes a b = true) : strIncludes s b = true := by
  unfold strIncludes at h1 h2 ⊢
  rw [charsHaveSub_iff] at h1 h2 ⊢
  exact h2.trans h1

/-- The Anthropic-specific branch of `isModelRequiringAccess` is subsumed
by the generic pattern list, so the whole function computes the generic
gated-family test. -/
theorem isModelRequiringAccess_eq_gated (modelId provider : String) :
    isModelRequiringAccess modelId provider = gatedFamilyTest modelId := by
  unfold isModelRequiringAccess gatedFamilyTest
  split
  next h =>
    rw [Bool.and_eq_true] at h
    obtain ⟨-, h2⟩ := h
    symm
    rw [List.any_eq_true]
    rw [Bool.or_eq_true] at h2
    rcases h2 with h3 | h3
    · rw [Bool.or_eq_true] at h3
      rcases h3 with h4 | h4
      · rw [Bool.or_eq_true] at h4
        rcases h4 with h5 | h5
        · exact ⟨"claude-4", by decide, h5⟩
        · exact ⟨"sonnet-4", by decide,
            strIncludes_trans modelId "claude-sonnet-4" "sonnet-4" h5 (by decide)⟩
      · exact ⟨"opus-4", by decide,
          strIncludes_trans modelId "claude-opus-4" "opus-4" h4 (by decide)⟩
    · exact ⟨"haiku-4", by decide,
        strIncludes_trans modelId "claude-haiku-4" "haiku-4" h3 (by decide)⟩
  next => rfl

/-! Helper lemmas about the JavaScript string ordering. -/

theorem clLe_total : ∀ a b : List Char, clLe a b = true ∨ clLe b a = true
  | [], _ => Or.inl rfl
  | _ :: _, [] => Or.inr rfl
  | a :: as, b :: bs => by
    rcases eq_or_ne a b with hab | hab
    · subst hab
      have := clLe_total as bs
      simpa [clLe] using this
    · rcases lt_or_gt_of_ne hab with h | h
      · left
        simp [clLe, hab, h]
      · right
        simp [clLe, Ne.symm hab, h]

theorem clLe_trans : ∀ a b c : List Char, clLe a b = true → clLe b c = true →
    clLe a c = true
  | [], _, _, _, _ => rfl
  | _ :: _, [], _, h1, _ => by simp [clLe] at h1
  | _ :: _, _ :: _, [], _, h2 => by simp [clLe] at h2
  | a :: as, b :: bs, c :: cs, h1, h2 => by
    simp only [clLe] at h1 h2 ⊢
    rcases eq_or_ne a b with hab | hab <;> rcases eq_or_ne b c with hbc | hbc
    · subst hab; subst hbc
      rw [if_pos rfl] at h1 h2 ⊢
      exact clLe_trans as bs cs h1 h2
    · subst hab
      rw [if_pos rfl] at h1
      rw [if_neg hbc] at h2 ⊢
      exact h2
    · subst hbc
      rw [if_neg hab] at h1 ⊢
      exact h1
    · rw [if_neg hab] at h1
      rw [if_neg hbc] at h2
      have hac : a < c := lt_trans (of_decide_eq_true h1) (of_decide_eq_true h2)
      rw [if_neg (ne_of_lt hac)]
      exact decide_eq_true hac

theorem clLe_antisymm : ∀ a b : List Char, clLe a b = true → clLe b a = true → a = b
  | [], [], _, _ => rfl
  | [], _ :: _, _, h2 => by simp [clLe] at h2
  | _ :: _, [], h1, _ => by simp [clLe] at h1
  | a :: as, b :: bs, h1, h2 => by
    simp only [clLe] at h1 h2
    rcases eq_or_ne a b with hab | hab
    · subst hab
      rw [if_pos rfl] at h1 h2
      rw [clLe_antisymm as bs h1 h2]
    · rw [if_neg hab] at h1
      rw [if_neg (Ne.symm hab)] at h2
      exact absurd (of_decide_eq_true h2) (lt_asymm (of_decide_eq_true h1))

instance : IsTotal String jsStrLe := ⟨fun a b => clLe_total a.toList b.toList⟩

instance : IsTrans String jsStrLe := ⟨fun a b c => clLe_trans a.toList b.toList c.toList⟩

instance : IsAntisymm String jsStrLe :=
  ⟨fun a b h1 h2 => String.ext (clLe_antisymm a.toList b.toList h1 h2)⟩

theorem jsSortStrings_sorted (l : List String) : (jsSortStrings l).Sorted jsStrLe :=
  List.sorted_insertionSort jsStrLe l

theorem jsSortStrings_perm (l : List String) : (jsSortStrings l).Perm l :=
  List.perm_insertionSort jsStrLe l

theorem jsSortStrings_eq (l₁ l₂ : List String) (h1 : l₁.Nodup) (h2 : l₂.Nodup)
    (hm : ∀ x, x ∈ l₁ ↔ x ∈ l₂) : jsSortStrings l₁ = jsSortStrings l₂ := by
  have hp : l₁.Perm l₂ := (List.perm_ext_iff_of_nodup h1 h2).mpr hm
  exact List.eq_of_perm_of_sorted
    ((jsSortStrings_perm l₁).trans (hp.trans (jsSortStrings_perm l₂).symm))
    (jsSortStrings_sorted l₁) (jsSortStrings_sorted l₂)

/-! Helper lemmas about the insertion-ordered set model. -/

theorem mem_jsSetAdd {s : List String} {a x : String} :
    x ∈ jsSetAdd s a ↔ x ∈ s ∨ x = a := by
  unfold jsSetAdd
  split
  next h =>
    constructor
    · exact Or.inl
    · rintro (hx | rfl)
      · exact hx
      · exact h
  next => simp

theorem nodup_jsSetAdd {s : List String} (a : String) (h : s.Nodup) :
    (jsSetAdd s a).Nodup := by
  unfold jsSetAdd
  split
  next => exact h
  next hna => simp [List.nodup_append, h, hna]

theorem mem_foldl_jsSetAdd : ∀ (l acc : List String) (x : String),
    x ∈ l.foldl jsSetAdd acc ↔ x ∈ acc ∨ x ∈ l
  | [], acc, x => by simp
  | a :: l, acc, x => by
    rw [List.foldl_cons, mem_foldl_jsSetAdd l (jsSetAdd acc a) x, mem_jsSetAdd]
    simp only [List.mem_cons]
    tauto

theorem nodup_foldl_jsSetAdd : ∀ (l acc : List String), acc.Nodup →
    (l.foldl jsSetAdd acc).Nodup
  | [], _, h => h
  | a :: l, acc, h => by
    rw [List.foldl_cons]
    exact nodup_foldl_jsSetAdd l _ (nodup_jsSetAdd a h)

/-! Helper lemmas about the region fan-out accumulation. -/

theorem mem_fanFold (contrib : String → List String) :
    ∀ (regions acc : List String) (x : String),
      x ∈ regions.foldl (fun acc r => (contrib r).foldl jsSetAdd acc) acc ↔
        x ∈ acc ∨ ∃ r ∈ regions, x ∈ contrib r
  | [], acc, x => by simp
  | r :: regions, acc, x => by
    rw [List.foldl_cons, mem_fanFold contrib regions _ x, mem_foldl_jsSetAdd]
    simp only [List.mem_cons]
    constructor
    · rintro ((ha | hc) | ⟨r', hr', hx⟩)
      · exact Or.inl ha
      · exact Or.inr ⟨r, Or.inl rfl, hc⟩
      · exact Or.inr ⟨r', Or.inr hr', hx⟩
    · rintro (ha | ⟨r', hr' | hr', hx⟩)
      · exact Or.inl (Or.inl ha)
      · exact Or.inl (Or.inr (hr' ▸ hx))
      · exact Or.inr ⟨r', hr', hx⟩

theorem nodup_fanFold (contrib : String → List String) :
    ∀ (regions acc : List String), acc.Nodup →
      (regions.foldl (fun acc r => (contrib r).foldl jsSetAdd acc) acc).Nodup
  | [], _, h => h
  | r :: regions, acc, h => by
    rw [List.foldl_cons]
    exact nodup_fanFold contrib regions _ (nodup_foldl_jsSetAdd _ _ h)

/-! Helper lemmas about the provider grouping of
`generateAccessRequestCommands`. -/

theorem map_fst_addToGroup : ∀ (m : List (String × List String)) (k v : String),
    (addToGroup m k v).map Prod.fst = jsSetAdd (m.map Prod.fst) k
  | [], k, v => by simp [addToGroup, jsSetAdd]
  | (p, ms) :: rest, k, v => by
    by_cases hpk : p = k
    · subst hpk
      simp [addToGroup, jsSetAdd]
    · simp only [addToGroup]
      rw [if_neg hpk]
      simp only [List.map_cons]
      rw [map_fst_addToGroup rest k v]
      unfold jsSetAdd
      by_cases hk : k ∈ rest.map Prod.fst
      · rw [if_pos hk, if_pos (List.mem_cons_of_mem _ hk)]
      · have hnotin : k ∉ p :: rest.map Prod.fst := by
          intro hmem
          rcases List.mem_cons.mp hmem with h | h
          · exact hpk h.symm
          · exact hk h
        rw [if_neg hk, if_neg hnotin]
        rfl

theorem map_fst_groupFold : ∀ (ids : List String) (m : List (String × List String)),
    ((ids.foldl (fun m modelId => addToGroup m (providerOf modelId) modelId) m).map
        Prod.fst) =
      (ids.map providerOf).foldl jsSetAdd (m.map Prod.fst)
  | [], _ => rfl
  | id :: ids, m => by
    simp only [List.foldl_cons, List.map_cons]
    rw [map_fst_groupFold ids _, map_fst_addToGroup]

theorem map_fst_groupByProvider (ids : List String) :
    (groupByProvider ids).map Prod.fst = (ids.map providerOf).foldl jsSetAdd [] :=
  map_fst_groupFold ids []

theorem nodup_keys_groupByProvider (ids : List String) :
    ((groupByProvider ids).map Prod.fst).Nodup := by
  rw [map_fst_groupByProvider]
  exact nodup_foldl_jsSetAdd _ _ List.nodup_nil

theorem mem_addToGroup : ∀ (m : List (String × List String)) (k v p : String)
    (ms : List String), (m.map Prod.fst).Nodup → (p, ms) ∈ addToGroup m k v →
    (p = k ∧ ((∃ vs, (k, vs) ∈ m ∧ ms = vs ++ [v]) ∨
        (k ∉ m.map Prod.fst ∧ ms = [v]))) ∨
      (p ≠ k ∧ (p, ms) ∈ m)
  | [], k, v, p, ms, _, hmem => by
    simp only [addToGroup, List.mem_singleton, Prod.mk.injEq] at hmem
    obtain ⟨rfl, rfl⟩ := hmem
    exact Or.inl ⟨rfl, Or.inr ⟨by simp, rfl⟩⟩
  | (q, qs) :: rest, k, v, p, ms, hnd, hmem => by
    simp only [List.map_cons, List.nodup_cons] at hnd
    obtain ⟨hqnotin, hndrest⟩ := hnd
    by_cases hqk : q = k
    · subst hqk
      simp only [addToGroup, if_pos rfl] at hmem
      rcases List.mem_cons.mp hmem with heq | hrest
      · rw [Prod.mk.injEq] at heq
        obtain ⟨rfl, rfl⟩ := heq
        exact Or.inl ⟨rfl, Or.inl ⟨qs, List.mem_cons_self _ _, rfl⟩⟩
      · have hpfst : p ∈ rest.map Prod.fst := List.mem_map_of_mem Prod.fst hrest
        by_cases hpk : p = q
        · subst hpk
          exact absurd hpfst hqnotin
        · exact Or.inr ⟨hpk, List.mem_cons_of_mem _ hrest⟩
    · simp only [addToGroup, if_neg hqk] at hmem
      rcases List.mem_cons.mp hmem with heq | hrest
      · rw [Prod.mk.injEq] at heq
        obtain ⟨rfl, rfl⟩ := heq
        exact Or.inr ⟨hqk, List.mem_cons_self _ _⟩
      · rcases mem_addToGroup rest k v p ms hndrest hrest with ⟨hpk, hcase⟩ | ⟨hpk, hmem'⟩
        · refine Or.inl ⟨hpk, ?_⟩
          rcases hcase with ⟨vs, hvs, hms⟩ | ⟨hknotin, hms⟩
          · exact Or.inl ⟨vs, List.mem_cons_of_mem _ hvs, hms⟩
          · refine Or.inr ⟨?_, hms⟩
            intro hmemk
            rcases List.mem_cons.mp hmemk with h | h
            · exact hqk h.symm
            · exact hknotin h
        · exact Or.inr ⟨hpk, List.mem_cons_of_mem _ hmem'⟩

theorem mem_groupFold : ∀ (ids : List String) (m : List (String × List String)),
    (m.map Prod.fst).Nodup → ∀ (p : String) (ms : List String),
    (p, ms) ∈ ids.foldl (fun m modelId => addToGroup m (providerOf modelId) modelId) m →
    (∃ ms₀, (p, ms₀) ∈ m ∧
        ms = ms₀ ++ ids.filter (fun id => decide (providerOf id = p))) ∨
      (p ∉ m.map Prod.fst ∧ ms = ids.filter (fun id => decide (providerOf id = p)))
  | [], _, _, _, ms, hmem => Or.inl ⟨ms, hmem, by simp⟩
  | id :: ids, m, hnd, p, ms, hmem => by
    simp only [List.foldl_cons] at hmem
    have hnd' : ((addToGroup m (providerOf id) id).map Prod.fst).Nodup := by
      rw [map_fst_addToGroup]
      exact nodup_jsSetAdd _ hnd
    rcases mem_groupFold ids _ hnd' p ms hmem with ⟨ms₁, hms₁, hms⟩ | ⟨hpnot, hms⟩
    · rcases mem_addToGroup m (providerOf id) id p ms₁ hnd hms₁ with
        ⟨hpk, hcase⟩ | ⟨hpk, hmem'⟩
      · have hfil : (decide (providerOf id = p)) = true := by
          rw [hpk]
          simp
        rcases hcase with ⟨vs, hvs, hms₁eq⟩ | ⟨hknotin, hms₁eq⟩
        · left
          refine ⟨vs, hpk ▸ hvs, ?_⟩
          rw [hms, hms₁eq, List.filter_cons, if_pos hfil]
          simp
        · right
          refine ⟨hpk ▸ hknotin, ?_⟩
          rw [hms, hms₁eq, List.filter_cons, if_pos hfil]
          simp
      · left
        refine ⟨ms₁, hmem', ?_⟩
        have hfil : (decide (providerOf id = p)) = false :=
          decide_eq_false fun h => hpk h.symm
        rw [hms, List.filter_cons, if_neg (by simp [hfil])]
    · rw [map_fst_addToGroup] at hpnot
      have hpnotm : p ∉ m.map Prod.fst := fun h => hpnot (mem_jsSetAdd.mpr (Or.inl h))
      have hpk : p ≠ providerOf id := fun h => hpnot (mem_jsSetAdd.mpr (Or.inr h))
      right
      refine ⟨hpnotm, ?_⟩
      have hfil : (decide (providerOf id = p)) = false :=
        decide_eq_false fun h => hpk h.symm
      rw [hms, List.filter_cons, if_neg (by simp [hfil])]

theorem mem_groupByProvider {ids : List String} {p : String} {ms : List String}
    (h : (p, ms) ∈ groupByProvider ids) :
    ms = ids.filter (fun id => decide (providerOf id = p)) := by
  rcases mem_groupFold ids [] List.nodup_nil p ms h with ⟨ms₀, hmem, _⟩ | ⟨_, hms⟩
  · simp at hmem
  · exact hms

theorem groupByProvider_eq_nil_iff (ids : List String) :
    groupByProvider ids = [] ↔ ids = [] := by
  constructor
  · intro h
    cases ids with
    | nil => rfl
    | cons id ids =>
      have hmem : providerOf id ∈ (groupByProvider (id :: ids)).map Prod.fst := by
        rw [map_fst_groupByProvider, mem_foldl_jsSetAdd]
        exact Or.inr (List.mem_map_of_mem providerOf (List.mem_cons_self _ _))
      rw [h] at hmem
      simp at hmem
  · intro h
    rw [h]
    rfl

theorem generateAccessRequestCommands_length (modelIds : List String) (region : String) :
    (generateAccessRequestCommands modelIds region).length =
      6 * (groupByProvider modelIds).length := by
  unfold generateAccessRequestCommands
  generalize groupByProvider modelIds = gs
  induction gs with
  | nil => rfl
  | cons g gs ih =>
    simp only [List.map_cons, List.flatten_cons, List.length_append, ih]
    rw [show (groupCommands g.1 g.2 region).length = 6 from rfl]
    simp only [List.length_cons]
    omega

theorem generateAccessRequestCommands_eq_nil_iff (modelIds : List String)
    (region : String) :
    generateAccessRequestCommands modelIds region = [] ↔ modelIds = [] := by
  constructor
  · intro h
    rw [← groupByProvider_eq_nil_iff, ← List.length_eq_zero]
    have hlen := generateAccessRequestCommands_length modelIds region
    rw [h] at hlen
    simp only [List.length_nil] at hlen
    omega
  · intro h
    subst h
    rfl

/-! Helper lemmas about the eight-digit window search of
`inferReleaseDate`. -/

theorem eightAt_nil (i : Nat) : eightAt [] i = false := by
  simp [eightAt]

theorem eightAt_cons_succ (c : Char) (cs : List Char) (i : Nat) :
    eightAt (c :: cs) (i + 1) = eightAt cs i := rfl

theorem firstEightWindow_eq_none_iff : ∀ l : List Char,
    firstEightWindow l = none ↔ ∀ i, eightAt l i = false
  | [] => by simp [firstEightWindow, eightAt_nil]
  | c :: cs => by
    unfold firstEightWindow
    by_cases h0 : eightAt (c :: cs) 0 = true
    · rw [if_pos h0]
      refine iff_of_false (by simp) fun hall => ?_
      have hcontra := hall 0
      rw [h0] at hcontra
      exact Bool.noConfusion hcontra
    · rw [if_neg h0, firstEightWindow_eq_none_iff cs]
      have h0f : eightAt (c :: cs) 0 = false := by simpa using h0
      constructor
      · intro hall i
        cases i with
        | zero => exact h0f
        | succ j =>
          rw [eightAt_cons_succ]
          exact hall j
      · intro hall i
        have h := hall (i + 1)
        rw [eightAt_cons_succ] at h
        exact h

theorem firstEightWindow_eq_some : ∀ l w : List Char,
    firstEightWindow l = some w →
    ∃ i, eightAt l i = true ∧ (∀ j, j < i → eightAt l j = false) ∧
      w = (l.drop i).take 8
  | [], w, h => by simp [firstEightWindow] at h
  | c :: cs, w, h => by
    unfold firstEightWindow at h
    by_cases h0 : eightAt (c :: cs) 0 = true
    · rw [if_pos h0] at h
      obtain rfl : (c :: cs).take 8 = w := Option.some.inj h
      exact ⟨0, h0, fun j hj => absurd hj (Nat.not_lt_zero j), by simp⟩
    · rw [if_neg h0] at h
      obtain ⟨i, hi, hbelow, hw⟩ := firstEightWindow_eq_some cs w h
      have h0f : eightAt (c :: cs) 0 = false := by simpa using h0
      refine ⟨i + 1, ?_, ?_, ?_⟩
      · rw [eightAt_cons_succ]
        exact hi
      · intro j hj
        cases j with
        | zero => exact h0f
        | succ j' =>
          rw [eightAt_cons_succ]
          exact hbelow j' (Nat.lt_of_succ_lt_succ hj)
      · rw [hw]
        rfl

/-! Small bridging lemmas for the orchestrator. -/

theorem checkModelAccessStatus_nilIds (creds : Credentials) (region : String)
    (query : HttpOutcome (List String)) :
    checkModelAccessStatus creds region [] query = [] := by
  cases query <;> rfl

theorem fetchLatestModelCatalogE_ok (w : FetchOutcome) :
    fetchLatestModelCatalogE w = Except.ok (fetchLatestModelCatalog w) := by
  cases w <;> rfl

theorem checkModelAccessStatusE_ok (creds : Credentials) (region : String)
    (modelIds : List String) (query : HttpOutcome (List String)) :
    checkModelAccessStatusE creds region modelIds query =
      Except.ok (checkModelAccessStatus creds region modelIds query) := by
  cases query <;> rfl

theorem fetchActuallyAvailableModelsE_ok (foundation : HttpOutcome (List ModelSummary))
    (profiles : HttpOutcome (List ProfileSummary)) :
    fetchActuallyAvailableModelsE foundation profiles =
      Except.ok (fetchActuallyAvailableModels foundation profiles) := by
  cases foundation <;> cases profiles <;>
    simp [fetchActuallyAvailableModelsE, fetchActuallyAvailableModels, availAttempt,
      profileContribution, jsSortStrings, List.insertionSort]

/-! Field projections of the orchestrator result. -/

theorem discover_catalogModels (w : DiscoveryWorld) (creds : Credentials)
    (region : String) :
    (discoverAvailableModels w creds region).catalogModels =
      fetchLatestModelCatalog w.catalogFetch := rfl

theorem discover_availableModels (w : DiscoveryWorld) (creds : Credentials)
    (region : String) :
    (discoverAvailableModels w creds region).availableModels =
      fetchActuallyAvailableModels w.foundationQuery w.profileQuery := rfl

theorem discover_accessStatuses (w : DiscoveryWorld) (creds : Credentials)
    (region : String) :
    (discoverAvailableModels w creds region).accessStatuses =
      checkModelAccessStatus creds region
        ((fetchLatestModelCatalog w.catalogFetch).map fun m => m.modelId)
        w.accessQuery := rfl

theorem discover_cliCommands (w : DiscoveryWorld) (creds : Credentials)
    (region : String) :
    (discoverAvailableModels w creds region).cliCommands =
      generateAccessRequestCommands
        (((discoverAvailableModels w creds region).accessStatuses.filter fun status =>
            !status.hasAccess && status.canRequestAccess).map fun status =>
          status.modelId)
        region := rfl

/-! The claims. -/

/-- Claim C1 counterexample: when the document fetch succeeds but the
document contains no table with both required headers,
`fetchLatestModelCatalog` returns the empty catalog — not the (non-empty)
static fallback — because `parseModelCatalogFromHTML` swallows its own
"Model table not found" throw. -/
theorem fetchLatestModelCatalog_no_table_counterexample :
    fetchLatestModelCatalog (FetchOutcome.ok (DomOutcome.ok [])) = [] ∧
    getFallbackModelCatalog ≠ [] := by
  constructor
  · rfl
  · decide

/-- Claim C1 (amended): `fetchLatestModelCatalog` raises no error for any
outcome; it returns the static fallback catalog (non-empty and
deterministic) exactly when the document fetch throws, while a DOM-parse
failure or an absent matching table yields the empty catalog instead. -/
theorem fetchLatestModelCatalog_tiering :
    (∀ w, fetchLatestModelCatalogE w = Except.ok (fetchLatestModelCatalog w)) ∧
    fetchLatestModelCatalog FetchOutcome.throwErr = getFallbackModelCatalog ∧
    getFallbackModelCatalog ≠ [] ∧
    fetchLatestModelCatalog (FetchOutcome.ok DomOutcome.throwErr) = [] ∧
    (∀ tables, findModelTable tables = none →
      fetchLatestModelCatalog (FetchOutcome.ok (DomOutcome.ok tables)) = []) := by
  refine ⟨fetchLatestModelCatalogE_ok, rfl, by decide, rfl, ?_⟩
  intro tables h
  simp [fetchLatestModelCatalog, parseModelCatalogFromHTML, h, enhanceModelMetadata]

/-- Witness for the amended C1 theorem at a concrete table list without
the required headers. -/
theorem fetchLatestModelCatalog_tiering_witness :
    fetchLatestModelCatalog
        (FetchOutcome.ok (DomOutcome.ok
          [{ headers := ["irrelevant"], rows := [["a", "b", "c", "d", "e", "f"]] }])) =
      [] :=
  fetchLatestModelCatalog_tiering.2.2.2.2
    [{ headers := ["irrelevant"], rows := [["a", "b", "c", "d", "e", "f"]] }] (by decide)

/-- Claim C2 counterexample: in the heuristic fallback tier an ungated
identifier is classified `hasAccess = true` with state `NOT_REQUESTED`,
so `hasAccess == true` does not imply state `GRANTED`. -/
theorem checkModelAccessStatus_invariant_counterexample :
    checkModelAccessStatus { accessKeyId := "AKIAEXAMPLE", secretAccessKey := "SECRET" }
        "us-west-2" ["amazon.titan-text-express-v1"] HttpOutcome.throwErr =
      [{ modelId := "amazon.titan-text-express-v1", hasAccess := true,
         accessStatus := "NOT_REQUESTED", canRequestAccess := true }] ∧
    ("NOT_REQUESTED" : String) ≠ "GRANTED" := by
  constructor
  · decide
  · decide

/-- Claim C2 (amended): in the live-query tier `hasAccess = true` is
equivalent to state `GRANTED`; in the heuristic fallback tier every
status carries the fixed state `NOT_REQUESTED` while `hasAccess` is the
negated gated-family test, so the claimed invariant holds only in the
live tier. -/
theorem checkModelAccessStatus_state_tiers (creds : Credentials) (region : String)
    (modelIds granted : List String) :
    (∀ s ∈ checkModelAccessStatus creds region modelIds (HttpOutcome.ok granted),
      (s.hasAccess = true ↔ s.accessStatus = "GRANTED")) ∧
    (∀ s ∈ checkModelAccessStatus creds region modelIds HttpOutcome.throwErr,
      s.accessStatus = "NOT_REQUESTED" ∧
        s.hasAccess = !isModelRequiringAccess s.modelId "") := by
  constructor
  · intro s hs
    simp only [checkModelAccessStatus, classifyLive, List.mem_map] at hs
    obtain ⟨id, -, rfl⟩ := hs
    have hne : ("NOT_REQUESTED" : String) ≠ "GRANTED" := by decide
    by_cases hmem : id ∈ granted
    · simp [hmem]
    · simp [hmem, hne]
  · intro s hs
    simp only [checkModelAccessStatus, classifyHeuristic, List.mem_map] at hs
    obtain ⟨id, -, rfl⟩ := hs
    exact ⟨rfl, rfl⟩

/-- Witness for the amended C2 theorem: the heuristic-tier status of a
gated identifier. -/
theorem checkModelAccessStatus_state_tiers_witness :
    ({ modelId := "anthropic.claude-opus-4-20250514-v1:0", hasAccess := false,
       accessStatus := "NOT_REQUESTED", canRequestAccess := true } :
        ModelAccessStatus).accessStatus = "NOT_REQUESTED" ∧
    ({ modelId := "anthropic.claude-opus-4-20250514-v1:0", hasAccess := false,
       accessStatus := "NOT_REQUESTED", canRequestAccess := true } :
        ModelAccessStatus).hasAccess =
      !isModelRequiringAccess "anthropic.claude-opus-4-20250514-v1:0" "" :=
  (checkModelAccessStatus_state_tiers
      { accessKeyId := "AKIAEXAMPLE", secretAccessKey := "SECRET" } "us-west-2"
      ["anthropic.claude-opus-4-20250514-v1:0"] []).2
    { modelId := "anthropic.claude-opus-4-20250514-v1:0", hasAccess := false,
      accessStatus := "NOT_REQUESTED", canRequestAccess := true } (by decide)

/-- Claim C3 counterexample: on a non-2xx entitlement response
`checkModelAccessStatus` returns the empty list even though one
identifier was requested, so it does not return one status per
identifier in every outcome. -/
theorem checkModelAccessStatus_notOk_counterexample :
    checkModelAccessStatus { accessKeyId := "AKIAEXAMPLE", secretAccessKey := "SECRET" }
        "us-west-2" ["anthropic.claude-3-5-sonnet-20241022-v2:0"] HttpOutcome.notOk = [] ∧
    (["anthropic.claude-3-5-sonnet-20241022-v2:0"] : List String) ≠ [] := by
  constructor
  · rfl
  · decide

/-- Claim C3 (amended): `checkModelAccessStatus` returns exactly one
status per requested identifier, in input order, when the live query
succeeds or throws; when the response is non-2xx it returns the empty
list instead (and so does the orchestrator's `accessStatuses`). -/
theorem checkModelAccessStatus_per_identifier (creds : Credentials) (region : String)
    (modelIds : List String) (query : HttpOutcome (List String)) :
    (query ≠ HttpOutcome.notOk →
      (checkModelAccessStatus creds region modelIds query).map
          (fun s => s.modelId) = modelIds) ∧
    checkModelAccessStatus creds region modelIds HttpOutcome.notOk = [] := by
  constructor
  · intro hq
    cases query with
    | notOk => exact absurd rfl hq
    | throwErr =>
      simp [checkModelAccessStatus, classifyHeuristic, List.map_map, Function.comp_def]
    | ok granted =>
      simp [checkModelAccessStatus, classifyLive, List.map_map, Function.comp_def]
  · rfl

/-- Witness for the amended C3 theorem on a successful live query. -/
theorem checkModelAccessStatus_per_identifier_witness :
    (checkModelAccessStatus { accessKeyId := "AKIAEXAMPLE", secretAccessKey := "SECRET" }
          "us-west-2"
          ["anthropic.claude-sonnet-4-5-20250929-v1:0", "amazon.nova-lite-v1:0"]
          (HttpOutcome.ok ["amazon.nova-lite-v1:0"])).map (fun s => s.modelId) =
      ["anthropic.claude-sonnet-4-5-20250929-v1:0", "amazon.nova-lite-v1:0"] :=
  (checkModelAccessStatus_per_identifier _ _ _ _).1 (by decide)

/-- Claim C4 counterexample: with a thrown foundation-models error the
region's inference-profiles query contributes nothing (the outer catch
skips it), whereas with a non-2xx foundation response the same profile
does contribute — so a thrown foundation failure does prevent the
profile contribution. -/
theorem fetchBedrockModels_foundation_throw_counterexample :
    fetchBedrockModelsMerged (fun _ => HttpOutcome.throwErr)
        (fun _ => HttpOutcome.ok
          [{ inferenceProfileId := "us.anthropic.claude-sonnet-4-5-20250929-v1:0",
             status := "ACTIVE" }]) ["us-west-2"] = [] ∧
    fetchBedrockModelsMerged (fun _ => HttpOutcome.notOk)
        (fun _ => HttpOutcome.ok
          [{ inferenceProfileId := "us.anthropic.claude-sonnet-4-5-20250929-v1:0",
             status := "ACTIVE" }]) ["us-west-2"] =
      ["us.anthropic.claude-sonnet-4-5-20250929-v1:0"] := by
  constructor
  · decide
  · decide

/-- Claim C4 (amended): each region's contribution to the merged fan-out
set depends only on that region's two query outcomes (so a failure in one
region never aborts the others); a non-2xx foundation response still lets
the region's inference profiles contribute, but a thrown foundation error
skips that region entirely, profiles included. -/
theorem fetchBedrockModels_region_isolation
    (foundationResp : String → HttpOutcome (List ModelSummary))
    (profileResp : String → HttpOutcome (List ProfileSummary))
    (regions : List String) (x : String) :
    (x ∈ fetchBedrockModelsMerged foundationResp profileResp regions ↔
      ∃ r ∈ regions, x ∈ regionContribution (foundationResp r) (profileResp r)) ∧
    (∀ p, regionContribution HttpOutcome.notOk p = profileContribution p) ∧
    (∀ p, regionContribution HttpOutcome.throwErr p = []) := by
  refine ⟨?_, fun _ => rfl, fun _ => rfl⟩
  unfold fetchBedrockModelsMerged
  rw [List.Perm.mem_iff (jsSortStrings_perm _),
    mem_fanFold (fun r => regionContribution (foundationResp r) (profileResp r))
      regions [] x]
  simp

/-- Witness for the amended C4 theorem at concrete oracles. -/
theorem fetchBedrockModels_region_isolation_witness :
    "a.b" ∈ fetchBedrockModelsMerged
        (fun _ => HttpOutcome.ok
          [{ modelId := "a.b", outputModalities := ["TEXT"], lifecycleStatus := "ACTIVE" }])
        (fun _ => HttpOutcome.notOk) ["us-west-2"] ↔
      ∃ r ∈ ["us-west-2"], "a.b" ∈ regionContribution
        (HttpOutcome.ok
          [{ modelId := "a.b", outputModalities := ["TEXT"], lifecycleStatus := "ACTIVE" }])
        HttpOutcome.notOk :=
  (fetchBedrockModels_region_isolation
      (fun _ => HttpOutcome.ok
        [{ modelId := "a.b", outputModalities := ["TEXT"], lifecycleStatus := "ACTIVE" }])
      (fun _ => HttpOutcome.notOk) ["us-west-2"] "a.b").1

/-- Claim C5: `discoverAvailableModels` is total — for every combination
of sub-step outcomes the explicit-exception version returns `Except.ok`
of the pure result (a well-formed four-field record), and the result is
all-empty exactly when the catalog step yielded no descriptors and the
availability fan-out yielded no identifiers (in which case the remaining
two fields are forced empty as well). -/
theorem discoverAvailableModels_total (w : DiscoveryWorld) (creds : Credentials)
    (region : String) :
    discoverAvailableModelsE w creds region =
      Except.ok (discoverAvailableModels w creds region) ∧
    (((discoverAvailableModels w creds region).availableModels = [] ∧
        (discoverAvailableModels w creds region).catalogModels = [] ∧
        (discoverAvailableModels w creds region).accessStatuses = [] ∧
        (discoverAvailableModels w creds region).cliCommands = []) ↔
      (fetchLatestModelCatalog w.catalogFetch = [] ∧
        fetchActuallyAvailableModels w.foundationQuery w.profileQuery = [])) := by
  constructor
  · unfold discoverAvailableModelsE
    rw [fetchLatestModelCatalogE_ok]
    dsimp only [Except.bind]
    rw [checkModelAccessStatusE_ok]
    dsimp only [Except.bind]
    rw [fetchActuallyAvailableModelsE_ok]
    rfl
  · constructor
    · rintro ⟨ha, hc, -, -⟩
      rw [discover_availableModels] at ha
      rw [discover_catalogModels] at hc
      exact ⟨hc, ha⟩
    · rintro ⟨hc, ha⟩
      have hacc : (discoverAvailableModels w creds region).accessStatuses = [] := by
        rw [discover_accessStatuses, hc]
        exact checkModelAccessStatus_nilIds creds region w.accessQuery
      have hcmd : (discoverAvailableModels w creds region).cliCommands = [] := by
        rw [discover_cliCommands, hacc]
        rfl
      exact ⟨by rw [discover_availableModels]; exact ha,
        by rw [discover_catalogModels]; exact hc, hacc, hcmd⟩

/-- Claim C6: the fan-out result is sorted in the JavaScript string
order, duplicate-free, its membership is exactly the union of the
per-region contributions, and permuting the input region list leaves the
output sequence unchanged. -/
theorem fetchBedrockModels_order_independent
    (foundationResp : String → HttpOutcome (List ModelSummary))
    (profileResp : String → HttpOutcome (List ProfileSummary))
    (regions₁ regions₂ : List String) (hperm : regions₁.Perm regions₂) :
    (fetchBedrockModelsMerged foundationResp profileResp regions₁).Sorted jsStrLe ∧
    (fetchBedrockModelsMerged foundationResp profileResp regions₁).Nodup ∧
    fetchBedrockModelsMerged foundationResp profileResp regions₁ =
      fetchBedrockModelsMerged foundationResp profileResp regions₂ := by
  refine ⟨jsSortStrings_sorted _, ?_, ?_⟩
  · exact (jsSortStrings_perm _).symm.nodup
      (nodup_fanFold (fun r => regionContribution (foundationResp r) (profileResp r))
        regions₁ [] List.nodup_nil)
  · unfold fetchBedrockModelsMerged
    apply jsSortStrings_eq
    · exact nodup_fanFold
        (fun r => regionContribution (foundationResp r) (profileResp r)) regions₁ []
        List.nodup_nil
    · exact nodup_fanFold
        (fun r => regionContribution (foundationResp r) (profileResp r)) regions₂ []
        List.nodup_nil
    · intro x
      rw [mem_fanFold (fun r => regionContribution (foundationResp r) (profileResp r))
          regions₁ [] x,
        mem_fanFold (fun r => regionContribution (foundationResp r) (profileResp r))
          regions₂ [] x]
      simp only [List.not_mem_nil, false_or]
      constructor
      · rintro ⟨r, hr, hx⟩
        exact ⟨r, hperm.mem_iff.mp hr, hx⟩
      · rintro ⟨r, hr, hx⟩
        exact ⟨r, hperm.mem_iff.mpr hr, hx⟩

/-- Witness for the C6 theorem: swapping two concrete regions leaves the
merged output unchanged. -/
theorem fetchBedrockModels_order_independent_witness :
    fetchBedrockModelsMerged
        (fun r => if r = "us-west-2" then HttpOutcome.ok
            [{ modelId := "b.two", outputModalities := ["TEXT"],
               lifecycleStatus := "ACTIVE" }]
          else HttpOutcome.throwErr)
        (fun _ => HttpOutcome.ok [{ inferenceProfileId := "a.one", status := "ACTIVE" }])
        ["us-west-2", "us-east-1"] =
      fetchBedrockModelsMerged
        (fun r => if r = "us-west-2" then HttpOutcome.ok
            [{ modelId := "b.two", outputModalities := ["TEXT"],
               lifecycleStatus := "ACTIVE" }]
          else HttpOutcome.throwErr)
        (fun _ => HttpOutcome.ok [{ inferenceProfileId := "a.one", status := "ACTIVE" }])
        ["us-east-1", "us-west-2"] :=
  (fetchBedrockModels_order_independent _ _ _ _ (by decide)).2.2

/-- Claim C7: on the gapped identifiers (statuses with
`hasAccess = false` and `canRequestAccess = true`) the command generator
produces one group per distinct provider namespace — keys in
first-encounter order and duplicate-free, each group holding exactly its
provider's identifiers in original relative order, six command lines per
group — and it produces zero commands iff every status has access or
cannot request it. -/
theorem generateAccessRequestCommands_grouping (statuses : List ModelAccessStatus)
    (region : String) :
    ∀ gapped, gapped =
      (statuses.filter fun s => !s.hasAccess && s.canRequestAccess).map
        (fun s => s.modelId) →
    ((groupByProvider gapped).map Prod.fst =
        (gapped.map providerOf).foldl jsSetAdd []) ∧
    ((groupByProvider gapped).map Prod.fst).Nodup ∧
    (∀ p ms, (p, ms) ∈ groupByProvider gapped →
      ms = gapped.filter fun id => decide (providerOf id = p)) ∧
    ((generateAccessRequestCommands gapped region).length =
      6 * (groupByProvider gapped).length) ∧
    (generateAccessRequestCommands gapped region = [] ↔
      ∀ s ∈ statuses, s.hasAccess = true ∨ s.canRequestAccess = false) := by
  intro gapped hg
  subst hg
  refine ⟨map_fst_groupByProvider _, nodup_keys_groupByProvider _,
    fun p ms h => mem_groupByProvider h, generateAccessRequestCommands_length _ _, ?_⟩
  rw [generateAccessRequestCommands_eq_nil_iff, List.map_eq_nil_iff,
    List.filter_eq_nil_iff]
  constructor
  · intro h s hs
    have hne := h s hs
    revert hne
    cases s.hasAccess <;> cases s.canRequestAccess <;> simp
  · intro h s hs
    have hor := h s hs
    revert hor
    cases s.hasAccess <;> cases s.canRequestAccess <;> simp

/-- Witness for the C7 theorem: both gapped Anthropic identifiers land in
the single `anthropic` group, in their original order. -/
theorem generateAccessRequestCommands_grouping_witness :
    (["anthropic.claude-sonnet-4-5-20250929-v1:0",
      "anthropic.claude-opus-4-20250514-v1:0"] : List String) =
      (["anthropic.claude-sonnet-4-5-20250929-v1:0",
        "anthropic.claude-opus-4-20250514-v1:0"] : List String).filter
        (fun id => decide (providerOf id = "anthropic")) :=
  ((generateAccessRequestCommands_grouping
      [{ modelId := "anthropic.claude-sonnet-4-5-20250929-v1:0", hasAccess := false,
         accessStatus := "NOT_REQUESTED", canRequestAccess := true },
       { modelId := "amazon.titan-text-express-v1", hasAccess := true,
         accessStatus := "GRANTED", canRequestAccess := true },
       { modelId := "anthropic.claude-opus-4-20250514-v1:0", hasAccess := false,
         accessStatus := "NOT_REQUESTED", canRequestAccess := true }]
      "us-west-2")
    ["anthropic.claude-sonnet-4-5-20250929-v1:0",
     "anthropic.claude-opus-4-20250514-v1:0"] (by decide)).2.2.1
    "anthropic"
    ["anthropic.claude-sonnet-4-5-20250929-v1:0",
     "anthropic.claude-opus-4-20250514-v1:0"] (by decide)

/-- Claim C8 counterexample: for `m123456789` the identifier has no
maximal run of exactly 8 digits (its only run has 9), so the spec's
reading leaves the date unset, yet `inferReleaseDate` returns the first
eight digits of that longer run. -/
theorem inferReleaseDate_maximal_run_counterexample :
    specReleaseDateByMaximalRun "m123456789" = none ∧
    inferReleaseDate "m123456789" = some "1234-56-78" := by
  constructor
  · decide
  · decide

/-- Claim C8 (amended): `inferReleaseDate` formats the eight digits found
at the earliest index at which eight consecutive digits start (the first
digit run of length at least 8, truncated to its first eight digits), and
it is unset iff no eight consecutive digits occur anywhere. -/
theorem inferReleaseDate_first_eight_window (modelId : String) :
    (inferReleaseDate modelId = none ↔ ∀ i, eightAt modelId.toList i = false) ∧
    (∀ d, inferReleaseDate modelId = some d →
      ∃ i, eightAt modelId.toList i = true ∧
        (∀ j, j < i → eightAt modelId.toList j = false) ∧
        d = fmtDate ((modelId.toList.drop i).take 8)) := by
  constructor
  · unfold inferReleaseDate
    rw [Option.map_eq_none']
    exact firstEightWindow_eq_none_iff _
  · intro d hd
    unfold inferReleaseDate at hd
    obtain ⟨v, hv, rfl⟩ : ∃ v, firstEightWindow modelId.toList = some v ∧ d = fmtDate v := by
      cases hfw : firstEightWindow modelId.toList with
      | none =>
        rw [hfw] at hd
        simp at hd
      | some v =>
        rw [hfw] at hd
        exact ⟨v, rfl, (Option.some.inj hd).symm⟩
    obtain ⟨i, hi, hb, hv8⟩ := firstEightWindow_eq_some _ _ hv
    exact ⟨i, hi, hb, by rw [hv8]⟩

/-- Witness for the amended C8 theorem at a concrete identifier with an
embedded date. -/
theorem inferReleaseDate_first_eight_window_witness :
    ∃ i, eightAt ("anthropic.claude-sonnet-4-5-20250929-v1:0").toList i = true ∧
      (∀ j, j < i →
        eightAt ("anthropic.claude-sonnet-4-5-20250929-v1:0").toList j = false) ∧
      "2025-09-29" =
        fmtDate ((("anthropic.claude-sonnet-4-5-20250929-v1:0").toList.drop i).take 8) :=
  (inferReleaseDate_first_eight_window "anthropic.claude-sonnet-4-5-20250929-v1:0").2
    "2025-09-29" (by decide)

/-- Claim C9: `isModelRequiringAccess` ignores its provider argument —
every identifier accepted by the Anthropic-specific branch also matches a
generic gated-family pattern — so the heuristic tier (empty provider)
classifies with exactly the same pattern set as catalog enrichment. -/
theorem isModelRequiringAccess_provider_independent (modelId p1 p2 : String) :
    isModelRequiringAccess modelId p1 = isModelRequiringAccess modelId p2 := by
  rw [isModelRequiringAccess_eq_gated modelId p1, isModelRequiringAccess_eq_gated modelId p2]

/-- Witness for the C9 theorem at a concrete identifier and provider
pair. -/
theorem isModelRequiringAccess_provider_independent_witness :
    isModelRequiringAccess "anthropic.claude-sonnet-4-5-20250929-v1:0" "Anthropic" =
      isModelRequiringAccess "anthropic.claude-sonnet-4-5-20250929-v1:0" "" :=
  isModelRequiringAccess_provider_independent
    "anthropic.claude-sonnet-4-5-20250929-v1:0" "Anthropic" ""

/-- Claim C10: every status `checkModelAccessStatus` can produce has
`canRequestAccess = true`, in both tiers (vacuously in the non-2xx case),
so the orchestrator's gap filter is equivalent to filtering on
`!hasAccess` alone. -/
theorem checkModelAccessStatus_canRequest_always (creds : Credentials) (region : String)
    (modelIds : List String) (query : HttpOutcome (List String)) :
    (∀ s ∈ checkModelAccessStatus creds region modelIds query,
      s.canRequestAccess = true) ∧
    (checkModelAccessStatus creds region modelIds query).filter
        (fun s => !s.hasAccess && s.canRequestAccess) =
      (checkModelAccessStatus creds region modelIds query).filter
        (fun s => !s.hasAccess) := by
  have hall : ∀ s ∈ checkModelAccessStatus creds region modelIds query,
      s.canRequestAccess = true := by
    intro s hs
    cases query with
    | notOk => simp [checkModelAccessStatus] at hs
    | throwErr =>
      simp only [checkModelAccessStatus, classifyHeuristic, List.mem_map] at hs
      obtain ⟨id, -, rfl⟩ := hs
      rfl
    | ok granted =>
      simp only [checkModelAccessStatus, classifyLive, List.mem_map] at hs
      obtain ⟨id, -, rfl⟩ := hs
      rfl
  refine ⟨hall, List.filter_congr ?_⟩
  intro s hs
  rw [hall s hs, Bool.and_true]

/-- Witness for the C10 theorem at a concrete heuristic-tier status. -/
theorem checkModelAccessStatus_canRequest_always_witness :
    ({ modelId := "amazon.nova-pro-v1:0", hasAccess := false,
       accessStatus := "NOT_REQUESTED", canRequestAccess := true } :
      ModelAccessStatus).canRequestAccess = true :=
  (checkModelAccessStatus_canRequest_always
      { accessKeyId := "AKIAEXAMPLE", secretAccessKey := "SECRET" } "us-west-2"
      ["amazon.nova-pro-v1:0"] HttpOutcome.throwErr).1
    { modelId := "amazon.nova-pro-v1:0", hasAccess := false,
      accessStatus := "NOT_REQUESTED", canRequestAccess := true } (by decide)

end Aws
